import Mathlib

/-!
Verification of the firmware-staging engine of the `mbed-ce-client-for-azure`
repository, file `COMPONENT_AZIOT_OTA_PAL_MCUBOOT/mcubupdate_handler/mcubupdate_handler.cpp`.

The embedding models:
* the aligned block writer of `MCUbUpdateHandlerImpl::CombinedDownloadInstall`
  together with `bd_read_program_unit` (device bytes and scratch buffers are
  total functions `Nat → Nat`; `bd->read` and `bd->program` are assumed to
  succeed and reads return the bytes previously programmed);
* the MCUboot image-header gate of the same function;
* the persistent upgrade-state store `nvImgUpgSt_*` over the KVStore
  (`kv_get` / `kv_set` of one fixed-size record);
* the boot-time recovery routine `Update_NVImgUpgSt_PostReboot`;
* the integrity verifier `MCUbUpdateHandlerImpl::VerifySignature`;
* the activate operation `MCUbUpdateHandlerImpl::Apply`.
-/

namespace MCUbUpdate

/-! ### Definitions -/

/-! ## Alignment arithmetic (mirrors the `/` and `*` computations of the source) -/

/-- `(x / u) * u`: the largest multiple of `u` not exceeding `x`
(`fwu_offset_first`, `readblock_aligndown`, `progunit_aligndown` in the source). -/
def alignDown (x u : Nat) : Nat := (x / u) * u

/-- `((x + u - 1) / u) * u`: the smallest multiple of `u` at or above `x`
(`fwu_offset_alignup` in the source). -/
def alignUp (x u : Nat) : Nat := ((x + u - 1) / u) * u

/-! ## Block device model

The secondary block device is a total byte map `Nat → Nat`.  A `program(buf,
addr, len)` call overwrites the byte range `[addr, addr+len)` from the buffer;
a `read(buf, addr, len)` call fills the first `len` bytes of the buffer from
the device.  Both are assumed to succeed, and reads return the bytes most
recently programmed, as the claims stipulate. -/

/-- Effect of `bd->program(buf, addr, len)` on the device byte map. -/
def bd_program (dev buf : Nat → Nat) (addr len : Nat) : Nat → Nat :=
  fun a => if addr ≤ a ∧ a < addr + len then buf (a - addr) else dev a

/-- Contents of the scratch buffer after `bd->read(buf, addr, len)`;
bytes past `len` keep the previous buffer contents (modelled as 0,
the buffers are only ever consumed inside the filled range). -/
def bd_read (dev : Nat → Nat) (addr len : Nat) : Nat → Nat :=
  fun j => if j < len then dev (addr + j) else 0

/-- `bd_read_program_unit` (source lines 1290-1315): read the read block
containing `offset` (aligned down to the read-block size `R`), then copy out
the program unit of size `P` containing `offset`.  The result is the contents
of the `progunit` buffer. -/
def bd_read_program_unit (dev : Nat → Nat) (P R offset : Nat) : Nat → Nat :=
  fun j =>
    if j < P then
      bd_read dev (alignDown offset R) R (alignDown offset P - alignDown offset R + j)
    else 0

/-! ## The aligned block writer

`MCUbUpdateHandlerImpl::CombinedDownloadInstall`, source lines 666-780: a chunk
of `len` bytes (`dl_data`/`dl_length`, read through `data : Nat → Nat`) arrives
at the cumulative download offset `off`.  The writer programs an unaligned
head by read-modify-write of its program unit, then the aligned middle
directly, then the unaligned tail by read-modify-write of its program unit. -/

/-- `fwu_todo` of the head phase: `min(fwu_offset_alignup - fwu_offset, fwu_rmn)`. -/
def headTodo (P off len : Nat) : Nat := min (alignUp off P - off) len

/-- `fwu_todo` of the middle phase: `(fwu_rmn / P) * P` after the head. -/
def middleTodo (P off len : Nat) : Nat := alignDown (len - headTodo P off len) P

/-- `fwu_todo` of the tail phase: the remainder after head and middle. -/
def tailTodo (P off len : Nat) : Nat := len - headTodo P off len - middleTodo P off len

/-- Head phase (source lines 677-719): if the chunk begins off a program-unit
boundary, read the program unit containing `off`, splice the head bytes at the
intra-unit position `fwu_offset - fwu_offset_first`, and program that unit. -/
def programHead (P R : Nat) (dev data : Nat → Nat) (off len : Nat) : Nat → Nat :=
  if headTodo P off len = 0 then dev
  else
    bd_program dev
      (fun j =>
        if off - alignDown off P ≤ j ∧ j < off - alignDown off P + headTodo P off len then
          data (j - (off - alignDown off P))
        else bd_read_program_unit dev P R off j)
      (alignDown off P) P

/-- Middle phase (source lines 721-736): program the program-unit-aligned bulk
of the chunk directly, with no read-modify-write. -/
def programMiddle (P : Nat) (dev1 data : Nat → Nat) (off len : Nat) : Nat → Nat :=
  if middleTodo P off len = 0 then dev1
  else
    bd_program dev1 (fun j => data (headTodo P off len + j)) (off + headTodo P off len)
      (middleTodo P off len)

/-- Tail phase (source lines 738-776): if trailing bytes remain (fewer than a
program unit), read the program unit at the current offset, splice the tail
bytes at its start (`memcpy(fwu_data_last, fwu_data, fwu_todo)`), and program
that whole unit. -/
def programTail (P R : Nat) (dev2 data : Nat → Nat) (off len : Nat) : Nat → Nat :=
  if tailTodo P off len = 0 then dev2
  else
    bd_program dev2
      (fun j =>
        if j < tailTodo P off len then data (headTodo P off len + middleTodo P off len + j)
        else bd_read_program_unit dev2 P R (off + headTodo P off len + middleTodo P off len) j)
      (off + headTodo P off len + middleTodo P off len) P

/-- Device contents after the write phases of one `CombinedDownloadInstall`
call for a chunk of `len` bytes at download offset `off`. -/
def combinedDownloadInstall_program (P R : Nat) (dev : Nat → Nat) (off : Nat)
    (data : Nat → Nat) (len : Nat) : Nat → Nat :=
  programTail P R (programMiddle P (programHead P R dev data off len) data off len) data off len

/-! ## Streaming a list of chunks -/

/-- Deliver a list of chunks in order through the writer, mirroring the
sequence of `CombinedDownloadInstall` callbacks: each call writes its chunk at
the tracked download offset and then advances the offset by the chunk length
(source line 780). -/
def runChunks (P R : Nat) : (Nat → Nat) → Nat → List (List Nat) → (Nat → Nat) × Nat
  | dev, off, [] => (dev, off)
  | dev, off, c :: cs =>
      runChunks P R
        (combinedDownloadInstall_program P R dev off (fun i => c.getD i 0) c.length)
        (off + c.length) cs

/-! ## The persistent upgrade state store

`OTA_NonVolatileImageUpgradeState_t` (source lines 56-75) is one fixed-size
record stored as a single blob under one KVStore key.  `kv_get` succeeds only
if the key is present and the stored length equals
`sizeof(OTA_NonVolatileImageUpgradeState_t)`; `kv_set` always writes the whole
record.  The two `char[65]` criteria arrays are byte lists; C strings are
null-terminated byte lists. -/

/-- `INSTALLEDCRITERIA_MAXCHAR` (source line 51). -/
def INSTALLEDCRITERIA_MAXCHAR : Nat := 64

/-- `struct image_version` of MCUboot: major, minor, revision, build number. -/
structure image_version where
  iv_major : Nat
  iv_minor : Nat
  iv_revision : Nat
  iv_build_num : Nat
deriving DecidableEq

/-- `OTA_NonVolatileImageUpgradeState_t`, field for field and in record-layout
order.  The `reserved` marker field (offset 80 of the 152-byte struct) starts
the region that `nvImgUpgSt_reset(false)` must not clear. -/
structure OTA_NonVolatileImageUpgradeState where
  stageVersion_valid : Bool
  stageVersion : image_version
  installRebooted_valid : Bool
  installRebooted : Bool
  stageInstalledCriteria_valid : Bool
  stageInstalledCriteria : List Nat
  reserved : Nat
  persistentInstalledCriteria_valid : Bool
  persistentInstalledCriteria : List Nat
deriving DecidableEq

def zeroVersion : image_version := ⟨0, 0, 0, 0⟩

/-- The all-zero-bytes record (`memset(&st, 0x00, sizeof ...)`). -/
def zeroState : OTA_NonVolatileImageUpgradeState :=
  { stageVersion_valid := false
    stageVersion := zeroVersion
    installRebooted_valid := false
    installRebooted := false
    stageInstalledCriteria_valid := false
    stageInstalledCriteria := List.replicate (INSTALLEDCRITERIA_MAXCHAR + 1) 0
    reserved := 0
    persistentInstalledCriteria_valid := false
    persistentInstalledCriteria := List.replicate (INSTALLEDCRITERIA_MAXCHAR + 1) 0 }

/-- `memset(&st, 0x00, offsetof(OTA_NonVolatileImageUpgradeState_t, reserved))`:
zero every field laid out before `reserved`, keep `reserved` and everything
after it. -/
def clearBeforeReserved (r : OTA_NonVolatileImageUpgradeState) :
    OTA_NonVolatileImageUpgradeState :=
  { r with
    stageVersion_valid := false
    stageVersion := zeroVersion
    installRebooted_valid := false
    installRebooted := false
    stageInstalledCriteria_valid := false
    stageInstalledCriteria := List.replicate (INSTALLEDCRITERIA_MAXCHAR + 1) 0 }

/-- `sizeof(OTA_NonVolatileImageUpgradeState_t)` on the 32-bit target (bools
and chars byte-sized, `image_version` and `uint32_t` 4-byte aligned). -/
def stateRecordSize : Nat := 152

/-- State of the KVStore entry for `ota_image_update_state`: whether the key
is present, the stored blob length, and the decoded record. -/
structure KVStore where
  present : Bool
  storedLength : Nat
  stored : OTA_NonVolatileImageUpgradeState
deriving DecidableEq

/-- `nvImgUpgSt_getAll` (source lines 1270-1286): fails if `kv_get` fails or
the returned length differs from the record size. -/
def nvImgUpgSt_getAll (kv : KVStore) : Option OTA_NonVolatileImageUpgradeState :=
  if kv.present = true ∧ kv.storedLength = stateRecordSize then some kv.stored else none

/-- `nvImgUpgSt_setAll` (source lines 1257-1268): `kv_set` of the whole record
(modelled as succeeding). -/
def nvImgUpgSt_setAll (r : OTA_NonVolatileImageUpgradeState) : KVStore :=
  ⟨true, stateRecordSize, r⟩

/-- `strlen` over a byte list: length of the prefix before the first 0. -/
def strlenBytes (l : List Nat) : Nat := (l.takeWhile (fun b => b != 0)).length

/-- `memcpy(dst, src, n)` for byte lists. -/
def cstrCopy (src dst : List Nat) (n : Nat) : List Nat := src.take n ++ dst.drop n

/-- `nvImgUpgSt_reset` (source lines 1067-1079): when `includeReserved` is set
or the stored record cannot be read back, write an all-zero record; otherwise
zero only the prefix before `reserved` and write the record back. -/
def nvImgUpgSt_reset (includeReserved : Bool) (kv : KVStore) : Bool × KVStore :=
  if includeReserved then (true, nvImgUpgSt_setAll zeroState)
  else
    match nvImgUpgSt_getAll kv with
    | none => (true, nvImgUpgSt_setAll zeroState)
    | some r => (true, nvImgUpgSt_setAll (clearBeforeReserved r))

/-- `nvImgUpgSt_setStageVersion` (source lines 1081-1094). -/
def nvImgUpgSt_setStageVersion (v : image_version) (kv : KVStore) : Bool × KVStore :=
  match nvImgUpgSt_getAll kv with
  | none => (false, kv)
  | some r => (true, nvImgUpgSt_setAll { r with stageVersion := v, stageVersion_valid := true })

/-- `nvImgUpgSt_setInstallRebooted` (source lines 1096-1107). -/
def nvImgUpgSt_setInstallRebooted (b : Bool) (kv : KVStore) : Bool × KVStore :=
  match nvImgUpgSt_getAll kv with
  | none => (false, kv)
  | some r =>
    (true, nvImgUpgSt_setAll { r with installRebooted := b, installRebooted_valid := true })

/-- `nvImgUpgSt_setStageInstalledCriteria` (source lines 1109-1127): fails if
the record cannot be read or the criteria exceeds the maximum length;
otherwise copies `strlen + 1` bytes into the stage field and writes back. -/
def nvImgUpgSt_setStageInstalledCriteria (c : List Nat) (kv : KVStore) : Bool × KVStore :=
  match nvImgUpgSt_getAll kv with
  | none => (false, kv)
  | some r =>
    if strlenBytes c > INSTALLEDCRITERIA_MAXCHAR then (false, kv)
    else
      (true, nvImgUpgSt_setAll
        { r with
          stageInstalledCriteria := cstrCopy c r.stageInstalledCriteria (strlenBytes c + 1)
          stageInstalledCriteria_valid := true })

/-- `nvImgUpgSt_settleInstalledCriteria` (source lines 1134-1163): fails
without writing if the record cannot be read, the stage criteria is not valid,
or it exceeds the maximum length; otherwise promotes the stage criteria to the
persistent field, clears the stage field and its flag, and writes back. -/
def nvImgUpgSt_settleInstalledCriteria (kv : KVStore) : Bool × KVStore :=
  match nvImgUpgSt_getAll kv with
  | none => (false, kv)
  | some r =>
    if r.stageInstalledCriteria_valid = false then (false, kv)
    else if strlenBytes r.stageInstalledCriteria > INSTALLEDCRITERIA_MAXCHAR then (false, kv)
    else
      (true, nvImgUpgSt_setAll
        { r with
          persistentInstalledCriteria :=
            cstrCopy r.stageInstalledCriteria r.persistentInstalledCriteria
              (strlenBytes r.stageInstalledCriteria + 1)
          persistentInstalledCriteria_valid := true
          stageInstalledCriteria_valid := false
          stageInstalledCriteria := List.replicate (INSTALLEDCRITERIA_MAXCHAR + 1) 0 })

/-- MCUboot `BOOT_FLAG_SET`. -/
def BOOT_FLAG_SET : Nat := 1

/-- MCUboot `BOOT_FLAG_UNSET`. -/
def BOOT_FLAG_UNSET : Nat := 255

/-- The bootloader collaborators of `nvImgUpgSt_installed` and the recovery
routine (spec treats them as a black box): the version header of the running
primary image, whether `flash_area_open` and `boot_read_image_ok` succeed, the
primary slot image-ok flag value, and whether `boot_set_confirmed` succeeds in
setting that flag. -/
structure BootEnv where
  active_version : image_version
  flash_open_ok : Bool
  read_image_ok_ok : Bool
  image_ok : Nat
  confirm_works : Bool
deriving DecidableEq

/-- `boot_set_confirmed()`: marks the primary image confirmed, i.e. sets the
image-ok flag (when the bootloader call succeeds). -/
def boot_set_confirmed (env : BootEnv) : BootEnv :=
  if env.confirm_works then { env with image_ok := BOOT_FLAG_SET } else env

/-- `nvImgUpgSt_installed` (source lines 1165-1217): fails unless the record
is readable, `installRebooted` is valid-and-true and `stageVersion` is valid;
fails if `stageVersion` differs from the running primary image's version or
`flash_area_open` fails; otherwise reports the image-ok flag (left at
`BOOT_FLAG_UNSET` if `boot_read_image_ok` fails) compared with
`BOOT_FLAG_SET`. -/
def nvImgUpgSt_installed (env : BootEnv) (kv : KVStore) : Option Bool :=
  match nvImgUpgSt_getAll kv with
  | none => none
  | some r =>
    if r.installRebooted_valid = false ∨ r.installRebooted = false then none
    else if r.stageVersion_valid = false then none
    else if r.stageVersion ≠ env.active_version then none
    else if env.flash_open_ok = false then none
    else
      some ((if env.read_image_ok_ok then env.image_ok else BOOT_FLAG_UNSET) == BOOT_FLAG_SET)

/-- `nvImgUpgSt_installRebooted` (source lines 1219-1232). -/
def nvImgUpgSt_installRebooted (kv : KVStore) : Option Bool :=
  match nvImgUpgSt_getAll kv with
  | none => none
  | some r => if r.installRebooted_valid = false then none else some r.installRebooted

/-- `nvImgUpgSt_persistentInstalledCriteria` (source lines 1234-1255). -/
def nvImgUpgSt_persistentInstalledCriteria (maxlen : Nat) (kv : KVStore) : Option (List Nat) :=
  match nvImgUpgSt_getAll kv with
  | none => none
  | some r =>
    if r.persistentInstalledCriteria_valid = false then none
    else if strlenBytes r.persistentInstalledCriteria + 1 > maxlen then none
    else some (r.persistentInstalledCriteria.take (strlenBytes r.persistentInstalledCriteria + 1))

/-- A stored-record example used by the concrete witnesses below. -/
def exampleState : OTA_NonVolatileImageUpgradeState :=
  { stageVersion_valid := true
    stageVersion := ⟨1, 2, 3, 4⟩
    installRebooted_valid := true
    installRebooted := true
    stageInstalledCriteria_valid := true
    stageInstalledCriteria := 97 :: 98 :: 0 :: List.replicate (INSTALLEDCRITERIA_MAXCHAR - 2) 0
    reserved := 7
    persistentInstalledCriteria_valid := true
    persistentInstalledCriteria := 99 :: 0 :: List.replicate (INSTALLEDCRITERIA_MAXCHAR - 1) 0 }

/-- A KVStore state holding `exampleState` with the correct record size. -/
def exampleKV : KVStore := ⟨true, stateRecordSize, exampleState⟩

/-! ## The boot-time recovery routine

`Update_NVImgUpgSt_PostReboot::Update_NVImgUpgSt_PostReboot` (source lines
96-129) runs once per boot.  Its state is the KVStore entry plus the
bootloader environment; `NVIC_SystemReset()` on the unconfirmed path is the
forced hardware reset whose *absence* the idempotence claim simulates, so the
model simply continues with the state the routine left behind. -/

/-- Step 1 (source lines 98-103): if `installRebooted` reads back
valid-and-false, set it true. -/
def postRebootStep1 (kv : KVStore) : KVStore :=
  match nvImgUpgSt_installRebooted kv with
  | some false => (nvImgUpgSt_setInstallRebooted true kv).snd
  | _ => kv

/-- Step 2 (source lines 105-113): if `nvImgUpgSt_installed` reports
not-confirmed, ask the bootloader to confirm the running image. -/
def postRebootStep2 (kv1 : KVStore) (env : BootEnv) : BootEnv :=
  match nvImgUpgSt_installed env kv1 with
  | some false => boot_set_confirmed env
  | _ => env

/-- Step 3 (source lines 115-128): re-query; if confirmed, settle the
installed criteria and clear the attempt while preserving the reserved
region; if still unconfirmed, clear the attempt and request the hardware
reset (which the idempotence scenario assumes does not happen). -/
def postRebootStep3 (kv1 : KVStore) (env1 : BootEnv) : KVStore × BootEnv :=
  match nvImgUpgSt_installed env1 kv1 with
  | some true =>
    ((nvImgUpgSt_reset false (nvImgUpgSt_settleInstalledCriteria kv1).snd).snd, env1)
  | some false => ((nvImgUpgSt_reset false kv1).snd, env1)
  | none => (kv1, env1)

/-- The whole boot-time recovery routine as a transformer of the persisted
record and the bootloader confirmation state. -/
def update_NVImgUpgSt_PostReboot (s : KVStore × BootEnv) : KVStore × BootEnv :=
  postRebootStep3 (postRebootStep1 s.fst) (postRebootStep2 (postRebootStep1 s.fst) s.snd)

/-! ## The image-header gate of `CombinedDownloadInstall`

Source lines 612-654: while the download offset is below
`sizeof(struct image_header)` (32 bytes), each chunk's overlap with the header
range is copied into the header buffer; on the call during which the header
range becomes fully populated the magic is validated, and on mismatch the call
fails (`goto done`) without advancing the download offset.  On failure the
download task cancels the transfer, so no further chunk is processed.  NV
writes (`nvImgUpgSt_setStageVersion`) are modelled as succeeding. -/

/-- MCUboot `IMAGE_MAGIC`. -/
def IMAGE_MAGIC : Nat := 0x96f3b83d

/-- `sizeof(struct image_header)` (MCUboot: magic, load address, header size,
protected TLV size, image size, flags, version, pad — 32 bytes). -/
def IMAGE_HEADER_SIZE : Nat := 32

/-- Download progress: tracked offset (`dl_prog.offset`), header buffer
(`fwu_stage.image_header` as raw bytes), and whether the stage has failed. -/
structure DLProg where
  offset : Nat
  header : Nat → Nat
  failed : Bool

/-- `ih_magic`: the first four header bytes read little-endian. -/
def headerMagic (hdr : Nat → Nat) : Nat :=
  hdr 0 + 256 * (hdr 1 + 256 * (hdr 2 + 256 * hdr 3))

/-- The magic of the first bytes of a byte sequence. -/
def bytesMagic (l : List Nat) : Nat := headerMagic (fun j => l.getD j 0)

/-- `image_header_todo`: how many incoming bytes land in the header range. -/
def headerTodo (off len : Nat) : Nat := min (IMAGE_HEADER_SIZE - off) len

/-- The `memcpy(image_header_pos, dl_data, image_header_todo)` of the header
accumulation: splice `todo` bytes of the chunk into the header buffer at the
current offset. -/
def mergeHeader (hdr : Nat → Nat) (off : Nat) (data : Nat → Nat) (todo : Nat) : Nat → Nat :=
  fun j => if off ≤ j ∧ j < off + todo then data (j - off) else hdr j

/-- The header-gate portion of one `CombinedDownloadInstall` call, plus the
offset advance of line 780 (device programming assumed to succeed).  A failed
state is left untouched: the download task cancels the transfer instead of
delivering further chunks (source lines 320-337). -/
def cdiHeaderStep (s : DLProg) (data : Nat → Nat) (len : Nat) : DLProg :=
  if s.failed = true then s
  else if s.offset < IMAGE_HEADER_SIZE then
    if s.offset + headerTodo s.offset len = IMAGE_HEADER_SIZE ∧
        headerMagic (mergeHeader s.header s.offset data (headerTodo s.offset len))
          ≠ IMAGE_MAGIC then
      { s with header := mergeHeader s.header s.offset data (headerTodo s.offset len)
               failed := true }
    else
      { s with header := mergeHeader s.header s.offset data (headerTodo s.offset len)
               offset := s.offset + len }
  else { s with offset := s.offset + len }

/-- Initial download progress: offset 0, zeroed header buffer, not failed. -/
def dlInit : DLProg := ⟨0, fun _ => 0, false⟩

/-- Deliver a stream of chunks through the header gate. -/
def runDownload (chunks : List (List Nat)) : DLProg :=
  chunks.foldl (fun s c => cdiHeaderStep s (fun i => c.getD i 0) c.length) dlInit

/-! ## The activate operation

`MCUbUpdateHandlerImpl::Apply` (source lines 455-504): stage the installed
criteria in NV, mark the secondary image pending (non-permanent), clear the
install-rebooted flag, and request a reboot.  The external collaborators are
the cancel flag, the success of `boot_set_pending`, and the KVStore; the
handler consults nothing about the preceding download or digest check. -/

/-- The ADUC result codes the Apply path can produce. -/
inductive ADUCResult where
  | Apply_Success
  | Apply_RequiredReboot
  | Failure
  | Cancel_Success
deriving DecidableEq

/-- `MCUbUpdateHandlerImpl::Apply`.  The installed criteria is a C string
(`IsNullOrEmpty` holds when its first byte is 0). -/
def MCUbUpdateHandlerImpl_Apply (installedCriteria : List Nat) (cancelRequested : Bool)
    (boot_set_pending_ok : Bool) (kv : KVStore) : ADUCResult × KVStore :=
  if installedCriteria.getD 0 0 = 0 then (.Failure, kv)
  else if cancelRequested = true then (.Cancel_Success, kv)
  else
    match nvImgUpgSt_setStageInstalledCriteria installedCriteria kv with
    | (false, kv1) => (.Failure, kv1)
    | (true, kv1) =>
      if boot_set_pending_ok = false then (.Failure, kv1)
      else
        match nvImgUpgSt_setInstallRebooted false kv1 with
        | (false, kv2) => (.Failure, kv2)
        | (true, kv2) => (.Apply_RequiredReboot, kv2)

/-! ## The integrity verifier

`MCUbUpdateHandlerImpl::VerifySignature` (source lines 786-954).  The SHA
accumulator and the Base64 encoding are abstract functions over the list of
hashed bytes; the external facts are whether the manifest supplies a usable
hash type and a hash value.  The outcome records the returned boolean, the
number of `bd->read` calls performed and whether a digest comparison took
place. -/

structure VerifyOutcome where
  ok : Bool
  readsPerformed : Nat
  digestCompared : Bool
deriving DecidableEq

/-- The read-and-hash loop (source lines 845-880): read full read blocks and
feed them to the hash while at least one full block remains.  Returns the
final offset, the remaining byte count, the number of reads performed and the
bytes fed to the hash. -/
def verifyReadLoop (dev : Nat → Nat) (R offset rmn reads : Nat) (hashed : List Nat) :
    Nat × Nat × Nat × List Nat :=
  if h : rmn = 0 ∨ R = 0 ∨ rmn < R then (offset, rmn, reads, hashed)
  else
    verifyReadLoop dev R (offset + R) (rmn - R) (reads + 1)
      (hashed ++ (List.range R).map (fun i => dev (offset + i)))
termination_by rmn
decreasing_by
  simp_wf
  omega

/-- `MCUbUpdateHandlerImpl::VerifySignature`: with `HashCount = 0` the whole
body is skipped and the function returns success; otherwise it resolves the
hash type, re-reads the staged image (a final short remainder is served by one
more full-block read of which only the remainder is hashed, source lines
882-909), Base64-encodes the digest and compares it with the expected value
from the manifest. -/
def MCUbUpdateHandlerImpl_VerifySignature (hashCount : Nat) (hashTypeOk : Bool)
    (hashValuePresent : Bool) (expected : List Nat)
    (hashFn encodeFn : List Nat → List Nat) (dev : Nat → Nat) (R size : Nat) :
    VerifyOutcome :=
  if hashCount = 0 then ⟨true, 0, false⟩
  else if hashTypeOk = false then ⟨false, 0, false⟩
  else
    match verifyReadLoop dev R 0 size 0 [] with
    | (off1, rmn1, reads1, hashed1) =>
      if rmn1 ≠ 0 then
        if hashValuePresent = false then ⟨false, reads1 + 1, false⟩
        else if encodeFn (hashFn (hashed1 ++ (List.range rmn1).map (fun i => dev (off1 + i))))
            = expected then ⟨true, reads1 + 1, true⟩
        else ⟨false, reads1 + 1, true⟩
      else
        if hashValuePresent = false then ⟨false, reads1, false⟩
        else if encodeFn (hashFn hashed1) = expected then ⟨true, reads1, true⟩
        else ⟨false, reads1, true⟩

/-! ### Theorems -/

theorem alignDown_le (x u : Nat) : alignDown x u ≤ x :=
  Nat.div_mul_le_self x u

theorem dvd_alignDown (x u : Nat) : u ∣ alignDown x u :=
  ⟨x / u, Nat.mul_comm _ _⟩

theorem dvd_alignUp (x u : Nat) : u ∣ alignUp x u :=
  ⟨(x + u - 1) / u, Nat.mul_comm _ _⟩

theorem alignDown_add_mod (x u : Nat) : alignDown x u + x % u = x := by
  unfold alignDown
  rw [Nat.mul_comm]
  exact Nat.div_add_mod x u

theorem lt_alignDown_add (x u : Nat) (hu : 0 < u) : x < alignDown x u + u := by
  have h := alignDown_add_mod x u
  have := Nat.mod_lt x hu
  omega

theorem alignDown_eq_of_dvd {x u : Nat} (h : u ∣ x) : alignDown x u = x := by
  obtain ⟨k, rfl⟩ := h
  unfold alignDown
  rcases Nat.eq_zero_or_pos u with hu | hu
  · simp [hu]
  · rw [Nat.mul_comm u k, Nat.mul_div_cancel _ hu]

theorem le_alignDown_of_dvd_of_le {m x u : Nat} (hu : 0 < u) (hd : u ∣ m) (hm : m ≤ x) :
    m ≤ alignDown x u := by
  obtain ⟨k, rfl⟩ := hd
  unfold alignDown
  have hk : k ≤ x / u := by
    rw [Nat.le_div_iff_mul_le hu, Nat.mul_comm]
    exact hm
  calc u * k = k * u := Nat.mul_comm _ _
  _ ≤ x / u * u := Nat.mul_le_mul_right u hk

theorem alignUp_eq_of_dvd {x u : Nat} (hu : 0 < u) (h : u ∣ x) : alignUp x u = x := by
  obtain ⟨k, rfl⟩ := h
  have h1 : u * k + u - 1 = u * k + (u - 1) := by omega
  have hz : (u - 1) / u = 0 := Nat.div_eq_of_lt (by omega)
  have hdiv : (u * k + u - 1) / u = k := by
    rw [h1, Nat.mul_add_div hu, hz, Nat.add_zero]
  unfold alignUp
  rw [hdiv, Nat.mul_comm]

theorem alignUp_eq_alignDown_add {x u : Nat} (hu : 0 < u) (h : ¬ u ∣ x) :
    alignUp x u = alignDown x u + u := by
  have hmod : x % u ≠ 0 := fun hc => h (Nat.dvd_of_mod_eq_zero hc)
  have hlt : x % u < u := Nat.mod_lt x hu
  have hx : u * (x / u) + x % u = x := Nat.div_add_mod x u
  have h1 : x + u - 1 = u * (x / u + 1) + (x % u - 1) := by
    rw [Nat.mul_add, Nat.mul_one]
    omega
  have hz : (x % u - 1) / u = 0 := Nat.div_eq_of_lt (by omega)
  have hdiv : (x + u - 1) / u = x / u + 1 := by
    rw [h1, Nat.mul_add_div hu, hz, Nat.add_zero]
  unfold alignUp alignDown
  rw [hdiv, Nat.add_mul, Nat.one_mul]

theorem sub_alignDown_eq_mod (x u : Nat) : x - alignDown x u = x % u := by
  have h := alignDown_add_mod x u
  omega

/-- When the program-unit size divides the read-block size (both are powers of
two on real devices, with `readblock_size ≥ progunit_size` asserted by the
source), `bd_read_program_unit` delivers exactly the device bytes of the
program unit containing `offset`. -/
theorem bd_read_program_unit_eq (dev : Nat → Nat) {P R : Nat} (hP : 0 < P) (hR : 0 < R)
    (hPR : P ∣ R) (offset : Nat) {j : Nat} (hj : j < P) :
    bd_read_program_unit dev P R offset j = dev (alignDown offset P + j) := by
  have hrb_le : alignDown offset R ≤ alignDown offset P :=
    le_alignDown_of_dvd_of_le hP (hPR.trans (dvd_alignDown offset R)) (alignDown_le offset R)
  have hdvd_diff : P ∣ (alignDown offset P - alignDown offset R) :=
    Nat.dvd_sub' (dvd_alignDown offset P) (hPR.trans (dvd_alignDown offset R))
  have hdiff_lt : alignDown offset P - alignDown offset R < R := by
    have h1 : alignDown offset P ≤ offset := alignDown_le offset P
    have h2 : offset < alignDown offset R + R := lt_alignDown_add offset R hR
    omega
  have hdiff_le : alignDown offset P - alignDown offset R + P ≤ R := by
    obtain ⟨a, ha⟩ := hdvd_diff
    obtain ⟨b, hb⟩ := hPR
    have hab : a < b := by
      have : P * a < P * b := by omega
      exact Nat.lt_of_mul_lt_mul_left this
    have : P * (a + 1) ≤ P * b := Nat.mul_le_mul_left P hab
    rw [Nat.mul_add, Nat.mul_one] at this
    omega
  have hin : alignDown offset P - alignDown offset R + j < R := by omega
  simp only [bd_read_program_unit, bd_read]
  rw [if_pos hj, if_pos hin]
  congr 1
  omega

/-! ## The writer realises a plain splice of the chunk at its offset -/

theorem bd_program_zero (dev buf : Nat → Nat) (addr : Nat) :
    bd_program dev buf addr 0 = dev := by
  funext a
  simp only [bd_program]
  rw [if_neg (show ¬(addr ≤ a ∧ a < addr + 0) by omega)]

theorem bd_program_congr {b1 b2 : Nat → Nat} (dev : Nat → Nat) (addr len : Nat)
    (h : ∀ j, j < len → b1 j = b2 j) :
    bd_program dev b1 addr len = bd_program dev b2 addr len := by
  funext a
  simp only [bd_program]
  by_cases hin : addr ≤ a ∧ a < addr + len
  · rw [if_pos hin, if_pos hin, h _ (by omega)]
  · rw [if_neg hin, if_neg hin]

/-- Programming `[off, off+t1)` from `d` and then `[off+t1, off+t1+t2)` from the
suffix of `d` starting at `t1` equals programming `[off, off+t1+t2)` from `d`. -/
theorem bd_program_append (dev d : Nat → Nat) (off t1 t2 : Nat) :
    bd_program (bd_program dev d off t1) (fun j => d (t1 + j)) (off + t1) t2
      = bd_program dev d off (t1 + t2) := by
  funext a
  simp only [bd_program]
  by_cases h1 : off + t1 ≤ a ∧ a < off + t1 + t2
  · rw [if_pos h1, if_pos (show off ≤ a ∧ a < off + (t1 + t2) by omega)]
    congr 1
    omega
  · rw [if_neg h1]
    by_cases h2 : off ≤ a ∧ a < off + t1
    · rw [if_pos h2, if_pos (show off ≤ a ∧ a < off + (t1 + t2) by omega)]
    · rw [if_neg h2, if_neg (show ¬(off ≤ a ∧ a < off + (t1 + t2)) by omega)]

/-- The head phase is a splice of the first `headTodo` chunk bytes at `off`:
the read-modify-write re-programs the rest of the unit with the bytes the
device already held. -/
theorem programHead_eq (P R : Nat) (hP : 0 < P) (hR : 0 < R) (hPR : P ∣ R)
    (dev data : Nat → Nat) (off len : Nat) :
    programHead P R dev data off len = bd_program dev data off (headTodo P off len) := by
  by_cases h0 : headTodo P off len = 0
  · rw [programHead, if_pos h0, h0, bd_program_zero]
  · have hnd : ¬ P ∣ off := by
      intro hd
      apply h0
      unfold headTodo
      rw [alignUp_eq_of_dvd hP hd]
      simp
    have hAU : alignUp off P = alignDown off P + P := alignUp_eq_alignDown_add hP hnd
    have hdl : alignDown off P ≤ off := alignDown_le off P
    have htle : headTodo P off len ≤ alignUp off P - off := Nat.min_le_left _ _
    have htle2 : off + headTodo P off len ≤ alignDown off P + P := by omega
    rw [programHead, if_neg h0]
    funext a
    simp only [bd_program]
    by_cases hin : alignDown off P ≤ a ∧ a < alignDown off P + P
    · rw [if_pos hin]
      by_cases hd : off ≤ a ∧ a < off + headTodo P off len
      · rw [if_pos hd,
          if_pos (show off - alignDown off P ≤ a - alignDown off P ∧
            a - alignDown off P < off - alignDown off P + headTodo P off len by omega)]
        congr 1
        omega
      · rw [if_neg hd,
          if_neg (show ¬(off - alignDown off P ≤ a - alignDown off P ∧
            a - alignDown off P < off - alignDown off P + headTodo P off len) by omega)]
        rw [bd_read_program_unit_eq dev hP hR hPR off (show a - alignDown off P < P by omega)]
        congr 1
        omega
    · rw [if_neg hin,
        if_neg (show ¬(off ≤ a ∧ a < off + headTodo P off len) by omega)]

theorem programMiddle_eq (P : Nat) (dev1 data : Nat → Nat) (off len : Nat) :
    programMiddle P dev1 data off len =
      bd_program dev1 (fun j => data (headTodo P off len + j)) (off + headTodo P off len)
        (middleTodo P off len) := by
  by_cases h0 : middleTodo P off len = 0
  · rw [programMiddle, if_pos h0, h0, bd_program_zero]
  · rw [programMiddle, if_neg h0]

/-- The tail phase is a splice of the final `tailTodo` chunk bytes at the
(then program-unit-aligned) current offset. -/
theorem programTail_eq (P R : Nat) (hP : 0 < P) (hR : 0 < R) (hPR : P ∣ R)
    (dev2 data : Nat → Nat) (off len : Nat)
    (hdvd : tailTodo P off len ≠ 0 → P ∣ (off + headTodo P off len + middleTodo P off len))
    (htlt : tailTodo P off len < P) :
    programTail P R dev2 data off len =
      bd_program dev2 (fun j => data (headTodo P off len + middleTodo P off len + j))
        (off + headTodo P off len + middleTodo P off len) (tailTodo P off len) := by
  by_cases h0 : tailTodo P off len = 0
  · rw [programTail, if_pos h0, h0, bd_program_zero]
  · have had : alignDown (off + headTodo P off len + middleTodo P off len) P
        = off + headTodo P off len + middleTodo P off len := alignDown_eq_of_dvd (hdvd h0)
    rw [programTail, if_neg h0]
    funext a
    set o2 := off + headTodo P off len + middleTodo P off len with ho2
    simp only [bd_program]
    by_cases hin : o2 ≤ a ∧ a < o2 + P
    · rw [if_pos hin]
      by_cases hd : a - o2 < tailTodo P off len
      · rw [if_pos hd, if_pos (show o2 ≤ a ∧ a < o2 + tailTodo P off len by omega)]
      · rw [if_neg hd, if_neg (show ¬(o2 ≤ a ∧ a < o2 + tailTodo P off len) by omega)]
        rw [bd_read_program_unit_eq dev2 hP hR hPR o2 (show a - o2 < P by omega), had]
        congr 1
        omega
    · rw [if_neg hin, if_neg (show ¬(o2 ≤ a ∧ a < o2 + tailTodo P off len) by omega)]

/-- One `CombinedDownloadInstall` write pass is exactly a program of the whole
chunk over `[off, off + len)`, leaving every other device byte unchanged. -/
theorem combinedDownloadInstall_program_eq (P R : Nat) (hP : 0 < P) (hR : 0 < R)
    (hPR : P ∣ R) (dev data : Nat → Nat) (off len : Nat) :
    combinedDownloadInstall_program P R dev off data len = bd_program dev data off len := by
  have ht1le : headTodo P off len ≤ len := Nat.min_le_right _ _
  have ht2le : middleTodo P off len ≤ len - headTodo P off len := alignDown_le _ _
  have hsum : headTodo P off len + middleTodo P off len + tailTodo P off len = len := by
    unfold tailTodo
    omega
  have hdvd : tailTodo P off len ≠ 0 →
      P ∣ (off + headTodo P off len + middleTodo P off len) := by
    intro h0
    have hrm : len - headTodo P off len ≠ 0 := by
      unfold tailTodo at h0
      omega
    have hd1 : P ∣ off + headTodo P off len := by
      by_cases hd : P ∣ off
      · have hz : headTodo P off len = 0 := by
          unfold headTodo
          rw [alignUp_eq_of_dvd hP hd]
          simp
        rw [hz, Nat.add_zero]
        exact hd
      · have hAU : alignUp off P = alignDown off P + P := alignUp_eq_alignDown_add hP hd
        have hdl : alignDown off P ≤ off := alignDown_le off P
        have hlt2 : off < alignDown off P + P := lt_alignDown_add off P hP
        have hle : alignUp off P - off ≤ len := by
          by_contra hgt
          push_neg at hgt
          have : headTodo P off len = len := Nat.min_eq_right (Nat.le_of_lt hgt)
          omega
        have heq : headTodo P off len = alignUp off P - off := Nat.min_eq_left hle
        have : off + headTodo P off len = alignUp off P := by omega
        rw [this]
        exact dvd_alignUp off P
    exact Nat.dvd_add hd1 (dvd_alignDown _ _)
  have htlt : tailTodo P off len < P := by
    unfold tailTodo middleTodo
    have h1 := sub_alignDown_eq_mod (len - headTodo P off len) P
    have h2 := Nat.mod_lt (len - headTodo P off len) hP
    omega
  unfold combinedDownloadInstall_program
  rw [programHead_eq P R hP hR hPR dev data off len, programMiddle_eq, bd_program_append,
    programTail_eq P R hP hR hPR _ data off len hdvd htlt, Nat.add_assoc off,
    bd_program_append, hsum]

theorem getD_append_shift (c rest : List Nat) :
    ∀ j, j < rest.length → rest.getD j 0 = (c ++ rest).getD (c.length + j) 0 := by
  intro j hj
  rw [List.getD_append_right c rest 0 (c.length + j) (Nat.le_add_right _ _),
    Nat.add_sub_cancel_left]

theorem bd_program_append_getD (dev : Nat → Nat) (off : Nat) (c rest : List Nat) :
    bd_program (bd_program dev (fun i => (c ++ rest).getD i 0) off c.length)
        (fun j => (c ++ rest).getD (c.length + j) 0) (off + c.length) rest.length
      = bd_program dev (fun i => (c ++ rest).getD i 0) off (c.length + rest.length) :=
  bd_program_append dev (fun i => (c ++ rest).getD i 0) off c.length rest.length

theorem runChunks_fst_eq (P R : Nat) (hP : 0 < P) (hR : 0 < R) (hPR : P ∣ R) :
    ∀ (cs : List (List Nat)) (dev : Nat → Nat) (off : Nat),
      (runChunks P R dev off cs).fst
        = bd_program dev (fun i => cs.flatten.getD i 0) off cs.flatten.length := by
  intro cs
  induction cs with
  | nil =>
    intro dev off
    show dev = _
    rw [List.flatten_nil, List.length_nil, bd_program_zero]
  | cons c cs ih =>
    intro dev off
    show (runChunks P R
        (combinedDownloadInstall_program P R dev off (fun i => c.getD i 0) c.length)
        (off + c.length) cs).fst = _
    rw [ih, combinedDownloadInstall_program_eq P R hP hR hPR,
      bd_program_congr dev off c.length
        (fun j hj => (List.getD_append c cs.flatten 0 j hj).symm),
      bd_program_congr (bd_program dev (fun i => (c ++ cs.flatten).getD i 0) off c.length)
        (off + c.length) cs.flatten.length (getD_append_shift c cs.flatten),
      bd_program_append_getD dev off c cs.flatten, List.flatten_cons, List.length_append]

/-- Claim C1: chunk-split invariance of the aligned block writer.  For every
program-unit size `P > 0` (and read-block size `R`, a positive multiple of `P`
as on the real device), every initial device contents, and every way of
splitting a byte sequence into consecutive in-order chunks delivered through
`CombinedDownloadInstall` starting at offset 0, the final committed device
byte at every position `a` below the total length equals byte `a` of the
concatenated sequence — identically for every split, since the result depends
only on the concatenation `cs.flatten`. -/
theorem combined_download_install_chunk_split_invariance
    (P R : Nat) (hP : 0 < P) (hR : 0 < R) (hPR : P ∣ R)
    (dev : Nat → Nat) (cs : List (List Nat)) (a : Nat) (ha : a < cs.flatten.length) :
    (runChunks P R dev 0 cs).fst a = cs.flatten.getD a 0 := by
  rw [runChunks_fst_eq P R hP hR hPR]
  simp only [bd_program]
  rw [if_pos (show 0 ≤ a ∧ a < 0 + cs.flatten.length by omega), Nat.sub_zero]

/-- Witness for C1 at a concrete split: `[1,2,3] ++ [4]` with `P = 2`, `R = 4`. -/
theorem chunk_split_invariance_instance :
    (runChunks 2 4 (fun _ => 0) 0 [[1, 2, 3], [4]]).fst 3
      = [[1, 2, 3], [4]].flatten.getD 3 0 :=
  combined_download_install_chunk_split_invariance 2 4 (by decide) (by decide) (by decide)
    (fun _ => 0) [[1, 2, 3], [4]] 3 (by decide)

/-- Claim C2 counterexample: a 2-byte chunk at offset 0 with program-unit size
`P = 4` ends mid-unit, yet after the single `CombinedDownloadInstall` call the
device holds the two tail bytes at offsets 0 and 1 — the trailing partial-unit
bytes were committed during that very call (source lines 738-776 read the
containing unit, splice the tail at its start and program the whole unit),
not merely buffered as the claim states. -/
theorem tail_commit_counterexample :
    (combinedDownloadInstall_program 4 4 (fun _ => 0) 0 (fun i => [5, 6].getD i 0) 2) 0 = 5 ∧
    (combinedDownloadInstall_program 4 4 (fun _ => 0) 0 (fun i => [5, 6].getD i 0) 2) 1 = 6 ∧
    (5 : Nat) ≠ 0 := by
  decide

/-- Claim C2 (amended): for every chunk write whose logical end offset is not a
multiple of the program-unit size `P`, the trailing partial-unit bytes are
committed to the device during that same call — the writer reads the program
unit containing them, splices them at its start, and programs the whole unit —
so every byte of the chunk, including the trailing partial unit, is on the
device when the call returns. -/
theorem tail_committed_same_call (P R : Nat) (hP : 0 < P) (hR : 0 < R) (hPR : P ∣ R)
    (dev data : Nat → Nat) (off len : Nat) (hmid : (off + len) % P ≠ 0)
    (a : Nat) (h1 : off ≤ a) (h2 : a < off + len) :
    combinedDownloadInstall_program P R dev off data len a = data (a - off) := by
  rw [combinedDownloadInstall_program_eq P R hP hR hPR]
  simp only [bd_program]
  rw [if_pos ⟨h1, h2⟩]

/-- Witness for the amended C2: a 3-byte chunk with `P = 4`, `R = 8` ends
mid-unit and its last byte is on the device after the call. -/
theorem tail_committed_instance :
    combinedDownloadInstall_program 4 8 (fun _ => 0) 0 (fun i => [7, 8, 9].getD i 0) 3 2 = 9 :=
  tail_committed_same_call 4 8 (by decide) (by decide) (by decide) (fun _ => 0) _ 0 3
    (by decide) 2 (by decide) (by decide)

/-- Claim C3: reserved-region frame condition of `nvImgUpgSt_reset`.  For
every readable stored record, `reset(true)` writes back the all-zero record,
and `reset(false)` writes back a record whose fields laid out before the
`reserved` marker are zeroed while `reserved` and every field at or beyond it
(`persistentInstalledCriteria_valid`, `persistentInstalledCriteria`) are
unchanged from the previously stored record. -/
theorem reset_frame_condition (kv : KVStore) (r : OTA_NonVolatileImageUpgradeState)
    (h : nvImgUpgSt_getAll kv = some r) :
    (nvImgUpgSt_reset true kv).snd.stored = zeroState ∧
    ((nvImgUpgSt_reset false kv).snd.stored.stageVersion_valid = false ∧
     (nvImgUpgSt_reset false kv).snd.stored.stageVersion = zeroVersion ∧
     (nvImgUpgSt_reset false kv).snd.stored.installRebooted_valid = false ∧
     (nvImgUpgSt_reset false kv).snd.stored.installRebooted = false ∧
     (nvImgUpgSt_reset false kv).snd.stored.stageInstalledCriteria_valid = false ∧
     (nvImgUpgSt_reset false kv).snd.stored.stageInstalledCriteria
        = List.replicate (INSTALLEDCRITERIA_MAXCHAR + 1) 0 ∧
     (nvImgUpgSt_reset false kv).snd.stored.reserved = r.reserved ∧
     (nvImgUpgSt_reset false kv).snd.stored.persistentInstalledCriteria_valid
        = r.persistentInstalledCriteria_valid ∧
     (nvImgUpgSt_reset false kv).snd.stored.persistentInstalledCriteria
        = r.persistentInstalledCriteria) := by
  simp [nvImgUpgSt_reset, nvImgUpgSt_setAll, clearBeforeReserved, h]

/-- Witness for C3 on a concrete stored record. -/
theorem reset_frame_condition_instance :
    (nvImgUpgSt_reset true exampleKV).snd.stored = zeroState ∧
    (nvImgUpgSt_reset false exampleKV).snd.stored.reserved = exampleState.reserved :=
  ⟨(reset_frame_condition exampleKV exampleState rfl).1,
   (reset_frame_condition exampleKV exampleState rfl).2.2.2.2.2.2.2.1⟩

/-- Claim C10: when the persistent record cannot be read back (`kv_get` fails
or the returned length differs from the record size), `reset(false)` does not
preserve the reserved suffix: it writes the entirely zeroed record, including
`reserved` and `persistentInstalledCriteria`. -/
theorem reset_unreadable_zeroes_reserved (kv : KVStore)
    (h : nvImgUpgSt_getAll kv = none) :
    (nvImgUpgSt_reset false kv).snd.stored = zeroState := by
  simp [nvImgUpgSt_reset, nvImgUpgSt_setAll, h]

/-- Witness for C10: a stored blob of the wrong length (10 bytes) makes
`nvImgUpgSt_getAll` fail, and `reset(false)` zeroes the whole record, losing
the previously stored `reserved` and persistent criteria values. -/
theorem reset_unreadable_instance :
    (nvImgUpgSt_reset false (KVStore.mk true 10 exampleState)).snd.stored = zeroState :=
  reset_unreadable_zeroes_reserved (KVStore.mk true 10 exampleState) (by decide)

/-- Claim C4: `nvImgUpgSt_settleInstalledCriteria` contract.  For every
readable stored record: if `stageInstalledCriteria_valid` is false the call
returns failure and the store is left unmodified (no write); if it is true and
the criteria fits the maximum length, the call copies the stage criteria into
`persistentInstalledCriteria` (setting its flag), clears the stage criteria
and its flag, and writes the record back. -/
theorem settle_installed_criteria_contract (kv : KVStore)
    (r : OTA_NonVolatileImageUpgradeState) (h : nvImgUpgSt_getAll kv = some r) :
    (r.stageInstalledCriteria_valid = false →
      nvImgUpgSt_settleInstalledCriteria kv = (false, kv)) ∧
    (r.stageInstalledCriteria_valid = true →
      strlenBytes r.stageInstalledCriteria ≤ INSTALLEDCRITERIA_MAXCHAR →
      nvImgUpgSt_settleInstalledCriteria kv =
        (true, nvImgUpgSt_setAll
          { r with
            persistentInstalledCriteria :=
              cstrCopy r.stageInstalledCriteria r.persistentInstalledCriteria
                (strlenBytes r.stageInstalledCriteria + 1)
            persistentInstalledCriteria_valid := true
            stageInstalledCriteria_valid := false
            stageInstalledCriteria := List.replicate (INSTALLEDCRITERIA_MAXCHAR + 1) 0 })) := by
  constructor
  · intro hv
    simp [nvImgUpgSt_settleInstalledCriteria, h, hv]
  · intro hv hlen
    have hlen2 : ¬ (strlenBytes r.stageInstalledCriteria > INSTALLEDCRITERIA_MAXCHAR) := by
      omega
    simp [nvImgUpgSt_settleInstalledCriteria, h, hv, hlen2]

/-- Witness for C4: settling a concrete record with a valid stage criteria. -/
theorem settle_installed_criteria_instance :
    (nvImgUpgSt_settleInstalledCriteria exampleKV).fst = true := by
  have h := (settle_installed_criteria_contract exampleKV exampleState rfl).2 rfl (by decide)
  rw [h]

/-- Claim C5: `nvImgUpgSt_installed` two-source check (bootloader collaborators
`flash_area_open` / `boot_read_image_ok` assumed to succeed, as in the spec's
black-box bootloader interface).  The query fails — returns `none`, i.e. false
with no confirmed value — unless `installRebooted` is valid-and-true and
`stageVersion` is valid; when both hold it fails on a version mismatch with
the running primary image; when the versions match it returns true and reports
as confirmed exactly whether the bootloader's image-ok flag for the primary
slot equals `BOOT_FLAG_SET`. -/
theorem query_installed_two_source (env : BootEnv) (kv : KVStore)
    (r : OTA_NonVolatileImageUpgradeState) (h : nvImgUpgSt_getAll kv = some r)
    (hopen : env.flash_open_ok = true) (hread : env.read_image_ok_ok = true) :
    (¬(r.installRebooted_valid = true ∧ r.installRebooted = true) →
        nvImgUpgSt_installed env kv = none) ∧
    (r.stageVersion_valid = false → nvImgUpgSt_installed env kv = none) ∧
    (r.installRebooted_valid = true → r.installRebooted = true →
      r.stageVersion_valid = true → r.stageVersion ≠ env.active_version →
        nvImgUpgSt_installed env kv = none) ∧
    (r.installRebooted_valid = true → r.installRebooted = true →
      r.stageVersion_valid = true → r.stageVersion = env.active_version →
        nvImgUpgSt_installed env kv = some (env.image_ok == BOOT_FLAG_SET)) := by
  refine ⟨?_, ?_, ?_, ?_⟩
  · intro hn
    cases hv : r.installRebooted_valid with
    | false => simp [nvImgUpgSt_installed, h, hv]
    | true =>
      cases hb : r.installRebooted with
      | false => simp [nvImgUpgSt_installed, h, hb]
      | true => exact absurd ⟨hv, hb⟩ hn
  · intro hsv
    by_cases h1 : r.installRebooted_valid = false ∨ r.installRebooted = false
    · simp [nvImgUpgSt_installed, h, h1]
    · simp [nvImgUpgSt_installed, h, h1, hsv]
  · intro h1 h2 h3 h4
    simp [nvImgUpgSt_installed, h, h1, h2, h3, h4]
  · intro h1 h2 h3 h4
    simp [nvImgUpgSt_installed, h, h1, h2, h3, h4, hopen, hread]

/-- Witness for C5: a record whose stage version matches the running image,
with `installRebooted` valid-and-true and the image-ok flag set. -/
theorem query_installed_instance :
    nvImgUpgSt_installed (BootEnv.mk ⟨1, 2, 3, 4⟩ true true 1 true) exampleKV
      = some true :=
  (query_installed_two_source (BootEnv.mk ⟨1, 2, 3, 4⟩ true true 1 true) exampleKV
      exampleState rfl rfl rfl).2.2.2 rfl rfl rfl rfl

theorem getAll_setAll (r : OTA_NonVolatileImageUpgradeState) :
    nvImgUpgSt_getAll (nvImgUpgSt_setAll r) = some r := rfl

/-- If the record is unreadable, every step of the recovery routine is a
no-op. -/
theorem postReboot_unreadable (kv : KVStore) (env : BootEnv)
    (h : nvImgUpgSt_getAll kv = none) :
    update_NVImgUpgSt_PostReboot (kv, env) = (kv, env) := by
  have h1 : postRebootStep1 kv = kv := by
    simp [postRebootStep1, nvImgUpgSt_installRebooted, h]
  have hI : ∀ env' : BootEnv, nvImgUpgSt_installed env' kv = none := fun env' => by
    simp [nvImgUpgSt_installed, h]
  have h2 : postRebootStep2 kv env = env := by
    simp [postRebootStep2, hI]
  show postRebootStep3 (postRebootStep1 kv) (postRebootStep2 (postRebootStep1 kv) env)
      = (kv, env)
  rw [h1, h2]
  simp [postRebootStep3, hI]

/-- A state whose record is readable, whose `installRebooted` flag would not
be rewritten by step 1, and on which `nvImgUpgSt_installed` reports nothing,
is a fixed point of the recovery routine. -/
theorem postReboot_fixed (kv : KVStore) (env : BootEnv)
    (r : OTA_NonVolatileImageUpgradeState) (hr : nvImgUpgSt_getAll kv = some r)
    (hp : r.installRebooted_valid = true → r.installRebooted = true)
    (hI : nvImgUpgSt_installed env kv = none) :
    update_NVImgUpgSt_PostReboot (kv, env) = (kv, env) := by
  have h1 : postRebootStep1 kv = kv := by
    cases hv : r.installRebooted_valid with
    | false => simp [postRebootStep1, nvImgUpgSt_installRebooted, hr, hv]
    | true => simp [postRebootStep1, nvImgUpgSt_installRebooted, hr, hv, hp hv]
  have h2 : postRebootStep2 kv env = env := by
    simp [postRebootStep2, hI]
  show postRebootStep3 (postRebootStep1 kv) (postRebootStep2 (postRebootStep1 kv) env)
      = (kv, env)
  rw [h1, h2]
  simp [postRebootStep3, hI]

/-- `reset(false)` always leaves a readable record whose `installRebooted`
flag is invalid. -/
theorem reset_false_shape (kv : KVStore) :
    nvImgUpgSt_getAll (nvImgUpgSt_reset false kv).snd
        = some (nvImgUpgSt_reset false kv).snd.stored ∧
      (nvImgUpgSt_reset false kv).snd.stored.installRebooted_valid = false := by
  cases hga : nvImgUpgSt_getAll kv with
  | none =>
    have he : (nvImgUpgSt_reset false kv).snd = nvImgUpgSt_setAll zeroState := by
      simp [nvImgUpgSt_reset, hga]
    rw [he]
    exact ⟨getAll_setAll _, rfl⟩
  | some r =>
    have he : (nvImgUpgSt_reset false kv).snd
        = nvImgUpgSt_setAll (clearBeforeReserved r) := by
      simp [nvImgUpgSt_reset, hga]
    rw [he]
    exact ⟨getAll_setAll _, rfl⟩

/-- With an invalid `installRebooted` flag, `nvImgUpgSt_installed` reports
nothing. -/
theorem installed_none_of_invalid_flag (env : BootEnv) (kv : KVStore)
    (r : OTA_NonVolatileImageUpgradeState) (hr : nvImgUpgSt_getAll kv = some r)
    (hv : r.installRebooted_valid = false) :
    nvImgUpgSt_installed env kv = none := by
  simp [nvImgUpgSt_installed, hr, hv]

/-- Any state produced by the `reset(false)` ending of the recovery routine is
a fixed point of the routine. -/
theorem postReboot_fixed_afterReset (kv0 : KVStore) (env0 : BootEnv) :
    update_NVImgUpgSt_PostReboot ((nvImgUpgSt_reset false kv0).snd, env0)
      = ((nvImgUpgSt_reset false kv0).snd, env0) := by
  obtain ⟨hget, hflag⟩ := reset_false_shape kv0
  exact postReboot_fixed _ _ _ hget (fun hc => absurd hc (by simp [hflag]))
    (installed_none_of_invalid_flag _ _ _ hget hflag)

/-- Claim C6: recovery idempotence.  For every persisted state record and
bootloader confirmation-flag environment, running the boot-time recovery
routine twice in succession — the second run starting from the state the
first run left behind, e.g. because the forced hardware reset did not
happen — leaves the same terminal persisted state (and bootloader state) as
running it once. -/
theorem recovery_idempotent (s : KVStore × BootEnv) :
    update_NVImgUpgSt_PostReboot (update_NVImgUpgSt_PostReboot s)
      = update_NVImgUpgSt_PostReboot s := by
  obtain ⟨kv, env⟩ := s
  cases h : nvImgUpgSt_getAll kv with
  | none =>
    rw [postReboot_unreadable kv env h, postReboot_unreadable kv env h]
  | some r =>
    have hkv1 : ∃ r1, nvImgUpgSt_getAll (postRebootStep1 kv) = some r1 ∧
        (r1.installRebooted_valid = true → r1.installRebooted = true) := by
      cases hv : r.installRebooted_valid with
      | false =>
        refine ⟨r, ?_, fun hc => absurd hc (by simp [hv])⟩
        simp [postRebootStep1, nvImgUpgSt_installRebooted, h, hv]
      | true =>
        cases hb : r.installRebooted with
        | true =>
          refine ⟨r, ?_, fun _ => hb⟩
          simp [postRebootStep1, nvImgUpgSt_installRebooted, h, hv, hb]
        | false =>
          refine ⟨{ r with installRebooted := true, installRebooted_valid := true }, ?_,
            fun _ => rfl⟩
          simp [postRebootStep1, nvImgUpgSt_installRebooted, nvImgUpgSt_setInstallRebooted,
            h, hv, hb, getAll_setAll]
    obtain ⟨r1, hr1, hp1⟩ := hkv1
    have hmain : update_NVImgUpgSt_PostReboot (kv, env)
        = postRebootStep3 (postRebootStep1 kv)
            (postRebootStep2 (postRebootStep1 kv) env) := rfl
    rw [hmain]
    cases h3 : nvImgUpgSt_installed (postRebootStep2 (postRebootStep1 kv) env)
        (postRebootStep1 kv) with
    | none =>
      have hout : postRebootStep3 (postRebootStep1 kv)
          (postRebootStep2 (postRebootStep1 kv) env)
            = (postRebootStep1 kv, postRebootStep2 (postRebootStep1 kv) env) := by
        simp [postRebootStep3, h3]
      rw [hout]
      exact postReboot_fixed _ _ r1 hr1 hp1 h3
    | some b =>
      cases b with
      | true =>
        have hout : postRebootStep3 (postRebootStep1 kv)
            (postRebootStep2 (postRebootStep1 kv) env)
              = ((nvImgUpgSt_reset false
                    (nvImgUpgSt_settleInstalledCriteria (postRebootStep1 kv)).snd).snd,
                 postRebootStep2 (postRebootStep1 kv) env) := by
          simp [postRebootStep3, h3]
        rw [hout]
        exact postReboot_fixed_afterReset _ _
      | false =>
        have hout : postRebootStep3 (postRebootStep1 kv)
            (postRebootStep2 (postRebootStep1 kv) env)
              = ((nvImgUpgSt_reset false (postRebootStep1 kv)).snd,
                 postRebootStep2 (postRebootStep1 kv) env) := by
          simp [postRebootStep3, h3]
        rw [hout]
        exact postReboot_fixed_afterReset _ _

theorem cdiHeaderStep_failed (s : DLProg) (hf : s.failed = true) (data : Nat → Nat)
    (len : Nat) : cdiHeaderStep s data len = s := by
  simp [cdiHeaderStep, hf]

theorem foldl_cdiHeaderStep_failed (cs : List (List Nat)) :
    ∀ s : DLProg, s.failed = true →
      cs.foldl (fun s' c => cdiHeaderStep s' (fun i => c.getD i 0) c.length) s = s := by
  induction cs with
  | nil => intro s _; rfl
  | cons c cs ih =>
    intro s hf
    show cs.foldl _ (cdiHeaderStep s (fun i => c.getD i 0) c.length) = s
    rw [cdiHeaderStep_failed s hf]
    exact ih s hf

theorem header_gate_aux (cs : List (List Nat)) :
    ∀ (pre : List Nat) (s : DLProg),
      s.failed = false →
      s.offset = pre.length →
      pre.length < IMAGE_HEADER_SIZE →
      (∀ j, j < pre.length → s.header j = pre.getD j 0) →
      IMAGE_HEADER_SIZE ≤ (pre ++ cs.flatten).length →
      bytesMagic (pre ++ cs.flatten) ≠ IMAGE_MAGIC →
      (cs.foldl (fun s' c => cdiHeaderStep s' (fun i => c.getD i 0) c.length) s).failed
          = true ∧
        (cs.foldl (fun s' c => cdiHeaderStep s' (fun i => c.getD i 0) c.length) s).offset
          < IMAGE_HEADER_SIZE := by
  have h32 : IMAGE_HEADER_SIZE = 32 := rfl
  induction cs with
  | nil =>
    intro pre s hf hoff hlt hh hlen hmag
    exfalso
    rw [List.flatten_nil, List.append_nil] at hlen
    omega
  | cons c cs ih =>
    intro pre s hf hoff hlt hh hlen hmag
    have hofflt : s.offset < IMAGE_HEADER_SIZE := by omega
    have htodoc : headerTodo s.offset c.length ≤ c.length := Nat.min_le_right _ _
    have htodo32 : headerTodo s.offset c.length ≤ IMAGE_HEADER_SIZE - s.offset :=
      Nat.min_le_left _ _
    have hassoc : pre ++ (c :: cs).flatten = (pre ++ c) ++ cs.flatten := by
      rw [List.flatten_cons, List.append_assoc]
    have hK : ∀ j, j < s.offset + headerTodo s.offset c.length →
        mergeHeader s.header s.offset (fun i => c.getD i 0)
            (headerTodo s.offset c.length) j = (pre ++ c).getD j 0 := by
      intro j hj
      unfold mergeHeader
      by_cases hj2 : s.offset ≤ j
      · rw [if_pos ⟨hj2, hj⟩, List.getD_append_right pre c 0 j (by omega), hoff]
      · rw [if_neg (by omega), hh j (by omega), List.getD_append pre c 0 j (by omega)]
    show (cs.foldl _ (cdiHeaderStep s (fun i => c.getD i 0) c.length)).failed = true ∧
      (cs.foldl _ (cdiHeaderStep s (fun i => c.getD i 0) c.length)).offset
        < IMAGE_HEADER_SIZE
    by_cases hcomp : s.offset + headerTodo s.offset c.length = IMAGE_HEADER_SIZE
    · -- the header range becomes fully populated during this chunk
      have hget : ∀ j, j < 4 → (pre ++ (c :: cs).flatten).getD j 0 = (pre ++ c).getD j 0 := by
        intro j hj
        rw [hassoc, List.getD_append (pre ++ c) cs.flatten 0 j
          (by rw [List.length_append]; omega)]
      have hmagic : headerMagic (mergeHeader s.header s.offset (fun i => c.getD i 0)
          (headerTodo s.offset c.length)) ≠ IMAGE_MAGIC := by
        have e : headerMagic (mergeHeader s.header s.offset (fun i => c.getD i 0)
            (headerTodo s.offset c.length)) = bytesMagic (pre ++ (c :: cs).flatten) := by
          simp only [bytesMagic, headerMagic]
          rw [hK 0 (by omega), hK 1 (by omega), hK 2 (by omega), hK 3 (by omega),
            hget 0 (by omega), hget 1 (by omega), hget 2 (by omega), hget 3 (by omega)]
        rw [e]
        exact hmag
      have hstep : cdiHeaderStep s (fun i => c.getD i 0) c.length
          = { s with
              header := mergeHeader s.header s.offset (fun i => c.getD i 0)
                (headerTodo s.offset c.length)
              failed := true } := by
        unfold cdiHeaderStep
        rw [if_neg (by simp [hf]), if_pos hofflt, if_pos ⟨hcomp, hmagic⟩]
      rw [hstep, foldl_cdiHeaderStep_failed cs _ rfl]
      refine ⟨rfl, ?_⟩
      show s.offset < IMAGE_HEADER_SIZE
      omega
    · -- the chunk is consumed entirely below the header boundary
      have htodo_eq : headerTodo s.offset c.length = c.length := by
        rcases Nat.le_total c.length (IMAGE_HEADER_SIZE - s.offset) with hle | hle
        · exact Nat.min_eq_right hle
        · exfalso
          apply hcomp
          unfold headerTodo
          rw [Nat.min_eq_left hle]
          omega
      have hstep : cdiHeaderStep s (fun i => c.getD i 0) c.length
          = { s with
              header := mergeHeader s.header s.offset (fun i => c.getD i 0)
                (headerTodo s.offset c.length)
              offset := s.offset + c.length } := by
        unfold cdiHeaderStep
        rw [if_neg (by simp [hf]), if_pos hofflt, if_neg (fun hc => hcomp hc.1)]
      rw [hstep]
      refine ih (pre ++ c) _ hf ?_ ?_ ?_ ?_ ?_
      · show s.offset + c.length = (pre ++ c).length
        rw [List.length_append, hoff]
      · rw [List.length_append]
        omega
      · intro j hj
        rw [List.length_append] at hj
        exact hK j (by omega)
      · rw [← hassoc]
        exact hlen
      · rw [← hassoc]
        exact hmag

/-- Claim C7: header gate.  For every chunked stream whose first
`IMAGE_HEADER_SIZE` bytes do not contain the expected magic, the staging
operation fails on the chunk call during which the header range first becomes
fully populated, and the tracked download offset never advances past the
header size: the failing call does not advance the offset, and once failed no
further chunk is processed, so the final offset is still below
`IMAGE_HEADER_SIZE`. -/
theorem header_gate_rejects_bad_magic (chunks : List (List Nat))
    (hlen : IMAGE_HEADER_SIZE ≤ chunks.flatten.length)
    (hmag : bytesMagic chunks.flatten ≠ IMAGE_MAGIC) :
    (runDownload chunks).failed = true ∧
      (runDownload chunks).offset < IMAGE_HEADER_SIZE := by
  unfold runDownload
  exact header_gate_aux chunks [] dlInit rfl rfl (by decide)
    (fun j hj => absurd hj (Nat.not_lt_zero j))
    (by simpa using hlen) (by simpa using hmag)

/-- Witness for C7: a single 32-byte all-zero chunk (magic 0) is rejected with
the offset still at 0. -/
theorem header_gate_instance :
    (runDownload [List.replicate 32 0]).failed = true ∧
      (runDownload [List.replicate 32 0]).offset < IMAGE_HEADER_SIZE :=
  header_gate_rejects_bad_magic [List.replicate 32 0] (by decide) (by decide)

/-- Claim C8 counterexample: the store state `nvImgUpgSt_setAll zeroState` is
exactly what a Download attempt leaves behind before any digest verification
(`OTACtx_Reinit` runs `nvImgUpgSt_reset(false)` on an empty store), yet Apply
with the criteria string "v2.0", no cancel request and a succeeding
`boot_set_pending` returns `Apply_RequiredReboot`, not `Failure`: Apply
performs no check of prior Stage/digest success. -/
theorem apply_without_stage_counterexample :
    (MCUbUpdateHandlerImpl_Apply [118, 50, 46, 48, 0] false true
        (nvImgUpgSt_setAll zeroState)).fst = ADUCResult.Apply_RequiredReboot ∧
      ADUCResult.Apply_RequiredReboot ≠ ADUCResult.Failure := by
  decide

/-- Claim C8 (amended): `Apply` does not itself gate on a prior successful
Stage digest verification.  Whenever the installed criteria is non-empty and
fits the maximum length, no cancel is requested, the persistent record is
readable, and the bootloader mark-pending call (and record writes) succeed,
Apply returns `Apply_RequiredReboot` regardless of any preceding Stage; and
it returns `Failure` exactly on its own local checks, e.g. whenever the
installed criteria is missing or empty. -/
theorem apply_no_stage_gating (c : List Nat) (kv : KVStore)
    (r : OTA_NonVolatileImageUpgradeState)
    (hne : c.getD 0 0 ≠ 0) (hlen : strlenBytes c ≤ INSTALLEDCRITERIA_MAXCHAR)
    (hget : nvImgUpgSt_getAll kv = some r) :
    (MCUbUpdateHandlerImpl_Apply c false true kv).fst = ADUCResult.Apply_RequiredReboot ∧
      (∀ (c' : List Nat) (cr bp : Bool) (kv' : KVStore), c'.getD 0 0 = 0 →
        (MCUbUpdateHandlerImpl_Apply c' cr bp kv').fst = ADUCResult.Failure) := by
  constructor
  · have hlen2 : ¬ (strlenBytes c > INSTALLEDCRITERIA_MAXCHAR) := by omega
    unfold MCUbUpdateHandlerImpl_Apply
    rw [if_neg hne]
    simp [nvImgUpgSt_setStageInstalledCriteria, nvImgUpgSt_setInstallRebooted, hget,
      hlen2, getAll_setAll]
  · intro c' cr bp kv' hc
    unfold MCUbUpdateHandlerImpl_Apply
    rw [if_pos hc]

/-- Witness for the amended C8 on the concrete post-Download store state. -/
theorem apply_no_stage_gating_instance :
    (MCUbUpdateHandlerImpl_Apply [118, 50, 46, 48, 0] false true
        (nvImgUpgSt_setAll zeroState)).fst = ADUCResult.Apply_RequiredReboot :=
  (apply_no_stage_gating [118, 50, 46, 48, 0] (nvImgUpgSt_setAll zeroState) zeroState
    (by decide) (by decide) rfl).1

/-- Claim C9: for every file entity whose manifest supplies zero hash entries
(`HashCount = 0`), the integrity verifier returns success while performing no
device read and no digest comparison — verification passes vacuously. -/
theorem verify_signature_zero_hash_vacuous (hashTypeOk hashValuePresent : Bool)
    (expected : List Nat) (hashFn encodeFn : List Nat → List Nat) (dev : Nat → Nat)
    (R size : Nat) :
    MCUbUpdateHandlerImpl_VerifySignature 0 hashTypeOk hashValuePresent expected
        hashFn encodeFn dev R size = ⟨true, 0, false⟩ := rfl

end MCUbUpdate
